import Mathlib

/-!
Shallow embedding of the control-and-dispatch subsystem of `src/main.c`
(monitoring agent): whitespace trimming, comma parsing of the FIFO payload,
registry lookup, the dispatch/resolution loop of `start_metrics_monitoring`,
the status reporter `update_status`, and the FIFO driver
`start_monitoring_from_fifo`.

Strings are modelled as `List Char`.  Side effects are modelled as an event
trace.  Environment outcomes that the C code branches on (result of `mkfifo`,
success of `fopen`, success of `pthread_create`, the bytes read from the FIFO)
are explicit parameters.  Callbacks (C function pointers) are identified by a
`Nat` tag.
-/

/-- `isspace` for the default C locale, as used by `trim_whitespace` in
`main.c` (space, tab, newline, vertical tab, form feed, carriage return). -/
def isSpaceC (c : Char) : Bool :=
  c = ' ' || c = '\t' || c = '\n' || c = '\u000B' || c = '\u000C' || c = '\r'

/-- Embedding of `trim_whitespace` (main.c:31): drop leading whitespace; if
nothing remains return the empty string, else also drop trailing whitespace. -/
def trim_whitespace (s : List Char) : List Char :=
  (((s.dropWhile isSpaceC).reverse).dropWhile isSpaceC).reverse

/-- Embedding of `parse_metrics` (main.c:229): `strtok` on `","` yields the
nonempty comma-separated segments in order; the loop takes at most
`max_metrics` of them and stores each one trimmed. -/
def parse_metrics (input : List Char) (max_metrics : Nat) : List (List Char) :=
  ((((input.splitOn ',').filter (fun t => t ≠ [])).take max_metrics).map trim_whitespace)

/-- One entry of the sentinel-terminated `all_metrics` registry array: a
metric name and its update callback (callback identity modelled as `Nat`). -/
structure MetricInfo where
  name : List Char
  update_function : Nat
deriving DecidableEq, Repr

/-- Embedding of the inner registry scan in `start_metrics_monitoring`
(main.c:181): linear walk over the registry, first exact `strcmp` match wins
(`break`), `none` when the sentinel is reached without a match. -/
def find_update_function (registry : List MetricInfo) (metric_name : List Char) : Option Nat :=
  match registry with
  | [] => none
  | info :: rest =>
    if metric_name = info.name then some info.update_function
    else find_update_function rest metric_name

/-- The first requested name that the registry does not resolve, if any
(the resolution loop in main.c:174 aborts at exactly this name). -/
def firstUnresolved (registry : List MetricInfo) : List (List Char) → Option (List Char)
  | [] => none
  | n :: rest =>
    if find_update_function registry n = none then some n
    else firstUnresolved registry rest

/-- Observable side effects of the control-and-dispatch code. -/
inductive Event where
  | initRegistry (selected : List (List Char))
  | threadStartAttempt (ok : Bool)
  | statusWrite (msg : List Char)
  | stderrWrite (msg : List Char)
  | stdoutWrite (msg : List Char)
  | callbackInvoked (f : Nat)
  | enterLoop
  | showMetrics
  | closeChannel
  | unlinkChannel
deriving DecidableEq, Repr

/-- Error text used by `create_threads` (main.c:149). -/
def threadErrMsg : List Char := ("Error creating HTTP server thread").toList

/-- The 44-character prefix of the dispatch-failure status message
(main.c:193). -/
def failMsgPrefix : List Char := ("Error: No update function found for metric '").toList

/-- The dispatch-failure status message built by `snprintf` into a
`BUFFER_SIZE` (256) byte buffer (main.c:193): truncated to 255 characters. -/
def statusFailMsg (metric_name : List Char) : List Char :=
  (failMsgPrefix ++ metric_name ++ ("'").toList).take 255

/-- The untruncated dispatch-failure text printed directly by `fprintf`
(main.c:197). -/
def statusFailMsgFull (metric_name : List Char) : List Char :=
  failMsgPrefix ++ metric_name ++ ("'").toList

/-- The per-token progress line printed by the resolution loop
(main.c:179). -/
def processMsg (metric_name : List Char) : List Char :=
  ("Processing metric: '").toList ++ metric_name ++ ("'").toList

/-- Embedding of `create_threads` (main.c:144): attempt to start the
exposition thread; on `pthread_create` failure it logs, records the status and
merely RETURNS (the `return EXIT_FAILURE;` in a `void` function returns
nothing), so the caller continues either way. -/
def create_threads (threadOk : Bool) : List Event :=
  if threadOk then [.threadStartAttempt true]
  else [.threadStartAttempt false, .stderrWrite threadErrMsg, .statusWrite threadErrMsg]

/-- Embedding of the resolution loop of `start_metrics_monitoring`
(main.c:174-200): for each selected name print the progress line and scan the
registry; on the first unresolved name record the error status, log twice and
abort (`none`); otherwise collect the callbacks in selection order. -/
def resolve_loop (registry : List MetricInfo) : List (List Char) → List Event × Option (List Nat)
  | [] => ([], some [])
  | n :: rest =>
    match find_update_function registry n with
    | none =>
      ([.stdoutWrite (processMsg n), .statusWrite (statusFailMsg n),
        .stderrWrite (statusFailMsg n), .stderrWrite (statusFailMsgFull n)], none)
    | some f =>
      let r := resolve_loop registry rest
      (.stdoutWrite (processMsg n) :: r.1, r.2.map (fun fs => f :: fs))

/-- Embedding of `start_metrics_monitoring` (main.c:166): `init_metrics`,
then `create_threads`, then the resolution loop; on full resolution it writes
the started status and enters the infinite cycle (second component
`some table`), on failure it returns without entering it (`none`). -/
def start_metrics_monitoring (registry : List MetricInfo) (threadOk : Bool)
    (selected_metrics : List (List Char)) : List Event × Option (List Nat) :=
  let evs0 := Event.initRegistry selected_metrics :: create_threads threadOk
  match resolve_loop registry selected_metrics with
  | (evs, none) => (evs0 ++ evs, none)
  | (evs, some table) =>
    (evs0 ++ evs ++ [.statusWrite ("Metrics monitoring started").toList, .enterLoop],
      some table)

/-- One cycle of the infinite monitoring loop (main.c:204-218): invoke every
resolved callback in table order (on the success path no slot is NULL). -/
def monitor_cycle (table : List Nat) : List Event :=
  table.map Event.callbackInvoked

/-- Outcome of `mkfifo(FIFO_PATH, 0666)` (main.c:256). -/
inductive MkfifoResult where
  | ok
  | eexist
  | err
deriving DecidableEq, Repr

/-- How a run of `start_monitoring_from_fifo` ends. -/
inductive FifoOutcome where
  | exitFail
  | done
  | loopForever (table : List Nat)
deriving DecidableEq, Repr

/-- Embedding of `start_monitoring_from_fifo` (main.c:254): create the FIFO
(`EEXIST` tolerated, any other failure fatal), open it (failure fatal), read
at most 255 bytes; empty read is logged and the FIFO is closed and removed;
a payload whose first parsed token is `"1"` triggers introspection and
cleanup; otherwise a nonempty selection is dispatched — if dispatch succeeds
the process stays in the monitoring loop forever and the trailing
`fclose`/`unlink` are never reached. -/
def start_monitoring_from_fifo (registry : List MetricInfo) (mk : MkfifoResult)
    (openOk : Bool) (threadOk : Bool) (data : List Char) : List Event × FifoOutcome :=
  if mk = .err then ([.stderrWrite ("mkfifo").toList], .exitFail)
  else if openOk = false then ([.stderrWrite ("fopen").toList], .exitFail)
  else
    let buffer := data.take 255
    if buffer = [] then
      ([.stderrWrite ("fread").toList, .closeChannel, .unlinkChannel], .done)
    else
      let selected_metrics := parse_metrics buffer 10
      match selected_metrics.head? with
      | none => ([.closeChannel, .unlinkChannel], .done)
      | some t =>
        if t = ("1").toList then
          ([.showMetrics, .closeChannel, .unlinkChannel], .done)
        else
          match start_metrics_monitoring registry threadOk selected_metrics with
          | (evs, some table) => (evs, .loopForever table)
          | (evs, none) => (evs ++ [.closeChannel, .unlinkChannel], .done)

/-- Embedding of `update_status` (main.c:59): open `STATUS_FILE` in `"w"`
(truncate) mode — on success the file content becomes exactly the status plus
a newline, the previous content being discarded; on open failure the content
is untouched, the error is logged and the function returns normally. -/
def update_status (openOk : Bool) (oldContent : List Char) (status : List Char) :
    List Char × List Event :=
  if openOk then (status ++ [ '\n' ], [])
  else (oldContent, [.stderrWrite ("fopen").toList])

/-- Modelled from the spec: the static registry `all_metrics` is declared in
`expose_metrics.h`/`metrics.h`, which are not among the sources; the spec's
end-to-end scenarios use a registry with the metric names `cpu` and
`memory`. -/
def all_metrics : List MetricInfo :=
  [⟨("cpu").toList, 0⟩, ⟨("memory").toList, 1⟩]

/-- Folding step extracting the most recent status write. -/
def statusStep (acc : Option (List Char)) (e : Event) : Option (List Char) :=
  match e with
  | .statusWrite m => some m
  | _ => acc

/-- Content of the status file written last, if any status was written
(the status file is truncated on every write, so its final content is the
last written message). -/
def lastStatusWrite (evs : List Event) : Option (List Char) :=
  evs.foldl statusStep none

/-! ### Helper lemmas about the resolution loop and event traces -/

/-- An empty requested name resolves to nothing when no registry entry has an
empty name. -/
theorem find_empty_none : ∀ (registry : List MetricInfo),
    (∀ info ∈ registry, info.name ≠ []) → find_update_function registry [] = none
  | [], _ => rfl
  | info :: rest, hne => by
    have h1 : info.name ≠ [] := hne info (List.mem_cons_self _ _)
    have h2 : ¬(([] : List Char) = info.name) := fun he => h1 he.symm
    simp [find_update_function, h2,
      find_empty_none rest (fun i hi => hne i (List.mem_cons_of_mem _ hi))]

/-- If some requested name does not resolve, the loop has a first unresolved
name. -/
theorem firstUnresolved_exists (registry : List MetricInfo) (names : List (List Char))
    (n : List Char) (hn : n ∈ names) (h : find_update_function registry n = none) :
    ∃ m, firstUnresolved registry names = some m := by
  induction names with
  | nil => simp at hn
  | cons a rest ih =>
    by_cases ha : find_update_function registry a = none
    · exact ⟨a, by simp [firstUnresolved, ha]⟩
    · rcases List.mem_cons.mp hn with rfl | hn'
      · exact absurd h ha
      · rcases ih hn' with ⟨m, hm⟩
        exact ⟨m, by simp [firstUnresolved, ha, hm]⟩

/-- When every requested name resolves, the resolution loop returns the
callbacks of the names in selection order. -/
theorem resolve_loop_ok (registry : List MetricInfo) (names : List (List Char))
    (h : ∀ n ∈ names, find_update_function registry n ≠ none) :
    (resolve_loop registry names).2
      = some (names.map (fun n => (find_update_function registry n).getD 0)) := by
  induction names with
  | nil => rfl
  | cons n rest ih =>
    have hn := h n (List.mem_cons_self n rest)
    match hfind : find_update_function registry n with
    | none => exact absurd hfind hn
    | some f =>
      simp [resolve_loop, hfind, ih (fun x hx => h x (List.mem_cons_of_mem n hx))]

/-- When some requested name does not resolve, the resolution loop aborts. -/
theorem resolve_loop_fail (registry : List MetricInfo) (names : List (List Char))
    (m : List Char) (h : firstUnresolved registry names = some m) :
    (resolve_loop registry names).2 = none := by
  induction names with
  | nil => simp [firstUnresolved] at h
  | cons n rest ih =>
    match hfind : find_update_function registry n with
    | none => simp [resolve_loop, hfind]
    | some f =>
      have h' : firstUnresolved registry rest = some m := by
        simpa [firstUnresolved, hfind] using h
      simp [resolve_loop, hfind, ih h']

/-- On an aborted resolution, the last status written inside the loop is the
failure message naming the first unresolved metric, whatever was written
before. -/
theorem resolve_loop_foldl_status (registry : List MetricInfo) (names : List (List Char))
    (m : List Char) (h : firstUnresolved registry names = some m) :
    ∀ acc, ((resolve_loop registry names).1).foldl statusStep acc = some (statusFailMsg m) := by
  induction names with
  | nil => simp [firstUnresolved] at h
  | cons n rest ih =>
    intro acc
    match hfind : find_update_function registry n with
    | none =>
      have hm : n = m := by simpa [firstUnresolved, hfind] using h
      subst hm
      simp [resolve_loop, hfind, statusStep]
    | some f =>
      have h' : firstUnresolved registry rest = some m := by
        simpa [firstUnresolved, hfind] using h
      simpa [resolve_loop, hfind, statusStep] using ih h' acc

/-- The resolution loop only prints and records statuses. -/
theorem resolve_loop_shape (registry : List MetricInfo) (names : List (List Char))
    (e : Event) (h : e ∈ (resolve_loop registry names).1) :
    (∃ s, e = .stdoutWrite s) ∨ (∃ s, e = .statusWrite s) ∨ (∃ s, e = .stderrWrite s) := by
  induction names with
  | nil => simp [resolve_loop] at h
  | cons n rest ih =>
    match hfind : find_update_function registry n with
    | none =>
      simp [resolve_loop, hfind] at h
      rcases h with h | h | h | h
      · exact Or.inl ⟨_, h⟩
      · exact Or.inr (Or.inl ⟨_, h⟩)
      · exact Or.inr (Or.inr ⟨_, h⟩)
      · exact Or.inr (Or.inr ⟨_, h⟩)
    | some f =>
      simp [resolve_loop, hfind] at h
      rcases h with h | h
      · exact Or.inl ⟨_, h⟩
      · exact ih h

/-- Thread creation only attempts the start and possibly logs and records. -/
theorem create_threads_shape (threadOk : Bool) (e : Event) (h : e ∈ create_threads threadOk) :
    (∃ b, e = .threadStartAttempt b) ∨ (∃ s, e = .statusWrite s) ∨ (∃ s, e = .stderrWrite s) := by
  cases threadOk with
  | true =>
    simp [create_threads] at h
    exact Or.inl ⟨_, h⟩
  | false =>
    simp [create_threads] at h
    rcases h with h | h | h
    · exact Or.inl ⟨_, h⟩
    · exact Or.inr (Or.inr ⟨_, h⟩)
    · exact Or.inr (Or.inl ⟨_, h⟩)

/-- Every event produced before entering (or instead of entering) the
monitoring cycle is an initialization, a thread-start attempt, console
output, a status write, or the loop-entry marker. -/
theorem smm_shape (registry : List MetricInfo) (threadOk : Bool)
    (names : List (List Char)) (e : Event)
    (h : e ∈ (start_metrics_monitoring registry threadOk names).1) :
    (∃ s, e = .initRegistry s) ∨ (∃ b, e = .threadStartAttempt b) ∨
    (∃ s, e = .stdoutWrite s) ∨ (∃ s, e = .statusWrite s) ∨
    (∃ s, e = .stderrWrite s) ∨ e = .enterLoop := by
  unfold start_metrics_monitoring at h
  rcases hr : resolve_loop registry names with ⟨evs, r2⟩
  rw [hr] at h
  have hevs : ∀ e, e ∈ evs →
      (∃ s, e = Event.stdoutWrite s) ∨ (∃ s, e = Event.statusWrite s) ∨
      (∃ s, e = Event.stderrWrite s) := by
    intro e he
    exact resolve_loop_shape registry names e (by rw [hr]; exact he)
  cases r2 with
  | none =>
    simp at h
    rcases h with h | h | h
    · exact Or.inl ⟨_, h⟩
    · rcases create_threads_shape threadOk e h with h' | h' | h'
      · exact Or.inr (Or.inl h')
      · exact Or.inr (Or.inr (Or.inr (Or.inl h')))
      · exact Or.inr (Or.inr (Or.inr (Or.inr (Or.inl h'))))
    · rcases hevs e h with h' | h' | h'
      · exact Or.inr (Or.inr (Or.inl h'))
      · exact Or.inr (Or.inr (Or.inr (Or.inl h')))
      · exact Or.inr (Or.inr (Or.inr (Or.inr (Or.inl h'))))
  | some table =>
    simp at h
    rcases h with h | h | h | h | h
    · exact Or.inl ⟨_, h⟩
    · rcases create_threads_shape threadOk e h with h' | h' | h'
      · exact Or.inr (Or.inl h')
      · exact Or.inr (Or.inr (Or.inr (Or.inl h')))
      · exact Or.inr (Or.inr (Or.inr (Or.inr (Or.inl h'))))
    · rcases hevs e h with h' | h' | h'
      · exact Or.inr (Or.inr (Or.inl h'))
      · exact Or.inr (Or.inr (Or.inr (Or.inl h')))
      · exact Or.inr (Or.inr (Or.inr (Or.inr (Or.inl h'))))
    · exact Or.inr (Or.inr (Or.inr (Or.inl ⟨_, h⟩)))
    · exact Or.inr (Or.inr (Or.inr (Or.inr (Or.inr h))))

/-- No callback is ever invoked before (or instead of) entering the cycle. -/
theorem smm_no_callback (registry : List MetricInfo) (threadOk : Bool)
    (names : List (List Char)) (f : Nat) :
    Event.callbackInvoked f ∉ (start_metrics_monitoring registry threadOk names).1 := by
  intro h
  rcases smm_shape registry threadOk names _ h with ⟨s, hs⟩ | ⟨b, hs⟩ | ⟨s, hs⟩ | ⟨s, hs⟩ | ⟨s, hs⟩ | hs <;>
    simp at hs

/-- The dispatch phase never touches the FIFO channel. -/
theorem smm_no_channel (registry : List MetricInfo) (threadOk : Bool)
    (names : List (List Char)) :
    Event.closeChannel ∉ (start_metrics_monitoring registry threadOk names).1 ∧
    Event.unlinkChannel ∉ (start_metrics_monitoring registry threadOk names).1 := by
  constructor <;> intro h <;>
    rcases smm_shape registry threadOk names _ h with ⟨s, hs⟩ | ⟨b, hs⟩ | ⟨s, hs⟩ | ⟨s, hs⟩ | ⟨s, hs⟩ | hs <;>
    simp at hs

/-- With an unresolved name, `start_metrics_monitoring` returns no dispatch
table. -/
theorem smm_snd_none (registry : List MetricInfo) (threadOk : Bool)
    (names : List (List Char)) (m : List Char)
    (h : firstUnresolved registry names = some m) :
    (start_metrics_monitoring registry threadOk names).2 = none := by
  unfold start_metrics_monitoring
  rcases hr : resolve_loop registry names with ⟨evs, r2⟩
  have h2 := resolve_loop_fail registry names m h
  rw [hr] at h2
  simp at h2
  subst h2
  simp

/-- On a dispatch failure the produced events are exactly the initialization,
the thread-start events and the events of the aborted resolution loop. -/
theorem smm_fail_events (registry : List MetricInfo) (threadOk : Bool)
    (names : List (List Char)) (m : List Char)
    (h : firstUnresolved registry names = some m) :
    (start_metrics_monitoring registry threadOk names).1
      = (Event.initRegistry names :: create_threads threadOk)
        ++ (resolve_loop registry names).1 := by
  unfold start_metrics_monitoring
  rcases hr : resolve_loop registry names with ⟨evs, r2⟩
  have h2 := resolve_loop_fail registry names m h
  rw [hr] at h2
  simp at h2
  subst h2
  simp

/-- With an unresolved name, the infinite cycle is never entered. -/
theorem smm_fail_no_enterLoop (registry : List MetricInfo) (threadOk : Bool)
    (names : List (List Char)) (m : List Char)
    (h : firstUnresolved registry names = some m) :
    Event.enterLoop ∉ (start_metrics_monitoring registry threadOk names).1 := by
  rw [smm_fail_events registry threadOk names m h]
  intro hmem
  rcases List.mem_append.mp hmem with hmem | hmem
  · rcases List.mem_cons.mp hmem with hmem | hmem
    · exact Event.noConfusion hmem
    · rcases create_threads_shape threadOk _ hmem with ⟨b, hs⟩ | ⟨s, hs⟩ | ⟨s, hs⟩ <;>
        simp at hs
  · rcases resolve_loop_shape registry names _ hmem with ⟨s, hs⟩ | ⟨s, hs⟩ | ⟨s, hs⟩ <;>
      simp at hs

/-- With an unresolved name, the final status content is the failure message
naming the first unresolved metric. -/
theorem smm_fail_lastStatus (registry : List MetricInfo) (threadOk : Bool)
    (names : List (List Char)) (m : List Char)
    (h : firstUnresolved registry names = some m) :
    lastStatusWrite (start_metrics_monitoring registry threadOk names).1
      = some (statusFailMsg m) := by
  rw [smm_fail_events registry threadOk names m h]
  unfold lastStatusWrite
  rw [List.foldl_append]
  exact resolve_loop_foldl_status registry names m h _

/-- A short enough metric name survives the 255-character `snprintf`
truncation of the failure status message. -/
theorem infix_of_short_statusFailMsg (m : List Char) (h : m.length ≤ 211) :
    m <:+: statusFailMsg m := by
  have hpl : failMsgPrefix.length = 44 := by decide
  have hlen : (failMsgPrefix ++ m).length ≤ 255 := by
    rw [List.length_append, hpl]
    omega
  have hdecomp : statusFailMsg m
      = (failMsgPrefix ++ m) ++ (("'").toList.take (255 - (failMsgPrefix ++ m).length)) := by
    unfold statusFailMsg
    rw [List.take_append_eq_append_take, List.take_of_length_le hlen]
  rw [hdecomp]
  exact List.IsInfix.trans
    ( List.IsSuffix.isInfix (List.suffix_append failMsgPrefix m))
    ( List.IsPrefix.isInfix (List.prefix_append _ _))

/-- When every requested name resolves, `start_metrics_monitoring` enters the
cycle with the table of callbacks in selection order. -/
theorem smm_ok (registry : List MetricInfo) (threadOk : Bool)
    (names : List (List Char))
    (h : ∀ n ∈ names, find_update_function registry n ≠ none) :
    (start_metrics_monitoring registry threadOk names).2
      = some (names.map (fun n => (find_update_function registry n).getD 0)) := by
  unfold start_metrics_monitoring
  rcases hr : resolve_loop registry names with ⟨evs, r2⟩
  have h2 := resolve_loop_ok registry names h
  rw [hr] at h2
  simp at h2
  subst h2
  simp

/-- Every run of the FIFO driver either exits the process with a failure, or
finishes with the channel closed and then unlinked as its last two actions,
or hangs in the monitoring cycle with exactly the dispatch events emitted. -/
theorem fifo_characterization (registry : List MetricInfo) (mk : MkfifoResult)
    (openOk threadOk : Bool) (data : List Char) :
    (∃ msg, start_monitoring_from_fifo registry mk openOk threadOk data
        = ([Event.stderrWrite msg], .exitFail)) ∨
    (∃ pre, start_monitoring_from_fifo registry mk openOk threadOk data
        = (pre ++ [Event.closeChannel, Event.unlinkChannel], .done)) ∨
    (∃ table, start_monitoring_from_fifo registry mk openOk threadOk data
        = ((start_metrics_monitoring registry threadOk
            (parse_metrics (data.take 255) 10)).1, .loopForever table)) := by
  simp only [start_monitoring_from_fifo]
  split
  · exact Or.inl ⟨_, rfl⟩
  · split
    · exact Or.inl ⟨_, rfl⟩
    · split
      · exact Or.inr (Or.inl ⟨[Event.stderrWrite ("fread").toList], rfl⟩)
      · split
        · exact Or.inr (Or.inl ⟨[], rfl⟩)
        · split
          · exact Or.inr (Or.inl ⟨[Event.showMetrics], rfl⟩)
          · split
            · next evs table heq =>
              refine Or.inr (Or.inr ⟨table, ?_⟩)
              rw [heq]
            · next evs heq =>
              exact Or.inr (Or.inl ⟨evs, rfl⟩)

/-! ### Claim theorems -/

/-- C1: for every requested metric name not present in the registry, dispatch
fails closed: no update callback is ever invoked, the status file is last
written with the failure message naming the first unresolved metric (which
appears verbatim in it whenever it fits the 255-character buffer), the
monitoring loop is never entered, and no previously resolved name in the same
payload is dispatched. -/
theorem C1_unresolved_dispatch_fails_closed (registry : List MetricInfo) (threadOk : Bool)
    (names : List (List Char)) (m : List Char)
    (h : firstUnresolved registry names = some m) :
    (start_metrics_monitoring registry threadOk names).2 = none ∧
    (∀ f, Event.callbackInvoked f ∉ (start_metrics_monitoring registry threadOk names).1) ∧
    Event.enterLoop ∉ (start_metrics_monitoring registry threadOk names).1 ∧
    lastStatusWrite (start_metrics_monitoring registry threadOk names).1
      = some (statusFailMsg m) ∧
    (m.length ≤ 211 → m <:+: statusFailMsg m) :=
  ⟨smm_snd_none registry threadOk names m h,
   fun f => smm_no_callback registry threadOk names f,
   smm_fail_no_enterLoop registry threadOk names m h,
   smm_fail_lastStatus registry threadOk names m h,
   fun hl => infix_of_short_statusFailMsg m hl⟩

/-- C1 witness: registry with `cpu` and `memory`, payload `cpu,disk`. -/
theorem C1_witness :
    firstUnresolved all_metrics [("cpu").toList, ("disk").toList] = some (("disk").toList) ∧
    (start_metrics_monitoring all_metrics true [("cpu").toList, ("disk").toList]).2 = none ∧
    lastStatusWrite
        (start_metrics_monitoring all_metrics true [("cpu").toList, ("disk").toList]).1
      = some (statusFailMsg (("disk").toList)) ∧
    ("disk").toList <:+: statusFailMsg (("disk").toList) := by
  have h := C1_unresolved_dispatch_fails_closed all_metrics true
    [("cpu").toList, ("disk").toList] (("disk").toList) (by decide)
  exact ⟨by decide, h.1, h.2.2.2.1, h.2.2.2.2 (by decide)⟩

/-- C3: the code intends the monitoring cycle to start only after a
successful exposition-thread start (`create_threads` even contains
`return EXIT_FAILURE;`), but because that statement returns from a `void`
function, a failed `pthread_create` does not stop anything: with a valid
payload the dispatch still succeeds, the cycle is still entered, and the
callbacks still run although the exposition thread never started —
contradicting the claim at this input. -/
theorem C3_loop_entered_despite_thread_failure :
    (start_metrics_monitoring all_metrics false [("cpu").toList]).2 = some [0] ∧
    Event.threadStartAttempt false
      ∈ (start_metrics_monitoring all_metrics false [("cpu").toList]).1 ∧
    Event.enterLoop ∈ (start_metrics_monitoring all_metrics false [("cpu").toList]).1 ∧
    monitor_cycle [0] = [Event.callbackInvoked 0] := by
  decide

/-- C5: when every requested name is registered, the dispatch table has one
entry per token, positionally the callback registered under that token's
name, duplicates preserved. -/
theorem C5_resolved_dispatch_table (registry : List MetricInfo) (threadOk : Bool)
    (names : List (List Char))
    (h : ∀ n ∈ names, find_update_function registry n ≠ none) :
    (start_metrics_monitoring registry threadOk names).2
      = some (names.map (fun n => (find_update_function registry n).getD 0)) ∧
    ∀ table, (start_metrics_monitoring registry threadOk names).2 = some table →
      table.length = names.length ∧
      ∀ i, (hi : i < names.length) →
        table[i]? = some ((find_update_function registry (names.get ⟨i, hi⟩)).getD 0) := by
  have h1 := smm_ok registry threadOk names h
  refine ⟨h1, ?_⟩
  intro table ht
  rw [h1] at ht
  have ht2 : table = names.map (fun n => (find_update_function registry n).getD 0) := by
    simpa using ht.symm
  subst ht2
  refine ⟨by simp, ?_⟩
  intro i hi
  rw [List.getElem?_map, List.getElem?_eq_getElem hi]
  simp

/-- C5 witness: duplicate names yield duplicate callback entries. -/
theorem C5_witness :
    (start_metrics_monitoring all_metrics true [("cpu").toList, ("cpu").toList]).2
      = some [0, 0] := by
  have h := (C5_resolved_dispatch_table all_metrics true
    [("cpu").toList, ("cpu").toList] (by decide)).1
  exact h.trans (by decide)

/-- C8: `update_status` truncates the status file and writes exactly the
status string followed by a newline, discarding the previous content; when
the file cannot be opened it logs to stderr, leaves the content untouched and
returns normally. -/
theorem C8_update_status_contract (oldContent status : List Char) :
    (update_status true oldContent status).1 = status ++ [ '\n' ] ∧
    (update_status true oldContent status).2 = [] ∧
    (update_status false oldContent status).1 = oldContent ∧
    (update_status false oldContent status).2 = [Event.stderrWrite (("fopen").toList)] := by
  simp [update_status]

/-- C2 counterexample: a payload whose names all resolve is consumed, yet the
process hangs in the monitoring loop and never closes the stream nor removes
`/tmp/monitor_fifo` — the `fclose`/`unlink` at the end of
`start_monitoring_from_fifo` are unreachable on that path. -/
theorem C2_counterexample :
    (start_monitoring_from_fifo all_metrics .ok true true (("cpu").toList)).2
      = FifoOutcome.loopForever [0] ∧
    Event.closeChannel
      ∉ (start_monitoring_from_fifo all_metrics .ok true true (("cpu").toList)).1 ∧
    Event.unlinkChannel
      ∉ (start_monitoring_from_fifo all_metrics .ok true true (("cpu").toList)).1 := by
  decide

/-- C2 amended: whenever the FIFO driver returns (introspection, dispatch
failure, zero tokens or read failure) the channel is closed and the node
removed; but when the payload dispatches successfully the process stays in
the monitoring loop forever and the channel is never closed nor removed. -/
theorem C2_one_shot_amended (registry : List MetricInfo) (mk : MkfifoResult)
    (openOk threadOk : Bool) (data : List Char) :
    ((start_monitoring_from_fifo registry mk openOk threadOk data).2 = .done →
      Event.closeChannel ∈ (start_monitoring_from_fifo registry mk openOk threadOk data).1 ∧
      Event.unlinkChannel ∈ (start_monitoring_from_fifo registry mk openOk threadOk data).1) ∧
    (∀ t, (start_monitoring_from_fifo registry mk openOk threadOk data).2 = .loopForever t →
      Event.closeChannel ∉ (start_monitoring_from_fifo registry mk openOk threadOk data).1 ∧
      Event.unlinkChannel ∉ (start_monitoring_from_fifo registry mk openOk threadOk data).1) := by
  rcases fifo_characterization registry mk openOk threadOk data with
    ⟨msg, hr⟩ | ⟨pre, hr⟩ | ⟨table, hr⟩
  · rw [hr]
    exact ⟨fun hd => FifoOutcome.noConfusion hd, fun t hd => FifoOutcome.noConfusion hd⟩
  · rw [hr]
    exact ⟨fun _ => ⟨by simp, by simp⟩, fun t hd => FifoOutcome.noConfusion hd⟩
  · rw [hr]
    refine ⟨fun hd => FifoOutcome.noConfusion hd, fun t hd => ?_⟩
    exact smm_no_channel registry threadOk (parse_metrics (data.take 255) 10)

/-- C2 amended witness: introspection payload `1` cleans up; payload `cpu`
loops forever without cleanup. -/
theorem C2_one_shot_witness :
    (Event.closeChannel ∈ (start_monitoring_from_fifo all_metrics .ok true true (("1").toList)).1 ∧
     Event.unlinkChannel ∈ (start_monitoring_from_fifo all_metrics .ok true true (("1").toList)).1) ∧
    (Event.closeChannel ∉ (start_monitoring_from_fifo all_metrics .ok true true (("cpu").toList)).1 ∧
     Event.unlinkChannel ∉ (start_monitoring_from_fifo all_metrics .ok true true (("cpu").toList)).1) :=
  ⟨(C2_one_shot_amended all_metrics .ok true true (("1").toList)).1 (by decide),
   (C2_one_shot_amended all_metrics .ok true true (("cpu").toList)).2 [0] (by decide)⟩

/-- C6: whenever the first parsed token of the payload is exactly `1`, the
run performs the introspection action, closes and removes the channel, and
neither enters the monitoring loop nor invokes any callback, regardless of
any further tokens. -/
theorem C6_first_token_one_introspects (registry : List MetricInfo) (mk : MkfifoResult)
    (openOk threadOk : Bool) (data : List Char)
    (hmk : mk ≠ .err) (hopen : openOk = true)
    (h1 : (parse_metrics (data.take 255) 10).head? = some (("1").toList)) :
    (start_monitoring_from_fifo registry mk openOk threadOk data).1
      = [Event.showMetrics, Event.closeChannel, Event.unlinkChannel] ∧
    (start_monitoring_from_fifo registry mk openOk threadOk data).2 = .done ∧
    Event.enterLoop ∉ (start_monitoring_from_fifo registry mk openOk threadOk data).1 ∧
    (∀ f, Event.callbackInvoked f
      ∉ (start_monitoring_from_fifo registry mk openOk threadOk data).1) := by
  have hbuf : data.take 255 ≠ [] := by
    intro he
    rw [he] at h1
    have : parse_metrics ([] : List Char) 10 = [] := by decide
    rw [this] at h1
    simp at h1
  have hr : start_monitoring_from_fifo registry mk openOk threadOk data
      = ([Event.showMetrics, Event.closeChannel, Event.unlinkChannel], .done) := by
    simp [start_monitoring_from_fifo, hmk, hopen, hbuf, h1]
  rw [hr]
  refine ⟨rfl, rfl, by simp, fun f => by simp⟩

/-- C6 witness: payload `1,garbage` introspects and cleans up. -/
theorem C6_witness :
    (start_monitoring_from_fifo all_metrics .ok true true (("1,garbage").toList)).1
      = [Event.showMetrics, Event.closeChannel, Event.unlinkChannel] ∧
    (start_monitoring_from_fifo all_metrics .ok true true (("1,garbage").toList)).2
      = FifoOutcome.done := by
  have h := C6_first_token_one_introspects all_metrics .ok true true
    (("1,garbage").toList) (by decide) rfl (by decide)
  exact ⟨h.1, h.2.1⟩

/-- C7: an already-existing FIFO node makes no difference at all to the run
(not an error, node untouched); any other `mkfifo` failure exits the process
with a failure status, as does a failure to open the FIFO. -/
theorem C7_channel_creation_idempotent (registry : List MetricInfo)
    (openOk threadOk : Bool) (data : List Char) :
    (start_monitoring_from_fifo registry .eexist openOk threadOk data
      = start_monitoring_from_fifo registry .ok openOk threadOk data) ∧
    ((start_monitoring_from_fifo registry .err openOk threadOk data).2
      = FifoOutcome.exitFail) ∧
    (∀ mk, mk ≠ MkfifoResult.err →
      (start_monitoring_from_fifo registry mk false threadOk data).2
        = FifoOutcome.exitFail) := by
  refine ⟨?_, by simp [start_monitoring_from_fifo], ?_⟩
  · simp [start_monitoring_from_fifo]
  · intro mk hmk
    simp [start_monitoring_from_fifo, hmk]

/-- C7 witness: with a successfully created FIFO but a failed open, the
process exits with failure. -/
theorem C7_witness :
    (start_monitoring_from_fifo all_metrics .ok false true (("cpu").toList)).2
      = FifoOutcome.exitFail :=
  (C7_channel_creation_idempotent all_metrics false true (("cpu").toList)).2.2
    .ok (by decide)

/-- C4: a well-formed comma-separated payload of at most 10 tokens (each
segment nonempty and comma-free) parses to exactly its segments in order,
each with surrounding whitespace removed. -/
theorem C4_parse_wellformed (segs : List (List Char))
    (hlen : segs.length ≤ 10)
    (hwf : ∀ s ∈ segs, s ≠ [] ∧ (',' : Char) ∉ s) :
    parse_metrics ([ ',' ].intercalate segs) 10 = segs.map trim_whitespace ∧
    (parse_metrics ([ ',' ].intercalate segs) 10).length = segs.length := by
  rcases eq_or_ne segs [] with rfl | hne
  · exact ⟨by decide, by decide⟩
  · have hsplit : ([ ',' ].intercalate segs).splitOn ',' = segs :=
      List.splitOn_intercalate segs ',' (fun l hl => (hwf l hl).2) hne
    have hfilter : segs.filter (fun t => t ≠ []) = segs := by
      rw [List.filter_eq_self]
      intro a ha
      simpa using (hwf a ha).1
    have htake : segs.take 10 = segs := List.take_of_length_le hlen
    constructor
    · unfold parse_metrics
      rw [hsplit, hfilter, htake]
    · unfold parse_metrics
      rw [hsplit, hfilter, htake]
      simp

/-- C4 witness: the payload ` cpu, memory ,disk` parses to
`[cpu, memory, disk]`. -/
theorem C4_witness :
    parse_metrics ((" cpu, memory ,disk").toList) 10
      = [("cpu").toList, ("memory").toList, ("disk").toList] := by
  have h := (C4_parse_wellformed
    [(" cpu").toList, (" memory ").toList, ("disk").toList] (by decide) (by decide)).1
  have he : [ ',' ].intercalate [(" cpu").toList, (" memory ").toList, ("disk").toList]
      = (" cpu, memory ,disk").toList := by decide
  rw [← he, h]
  decide

/-- C9: `parse_metrics` yields at most `max_metrics` tokens, and raising the
bound only appends further tokens — the segments beyond the bound are simply
the ones dropped by `take`, with no error anywhere; concretely, an
11-valid-name payload still dispatches, with exactly the first ten callbacks
and nothing written to stderr. -/
theorem C9_parse_bounded (input : List Char) (n m : Nat) (h : n ≤ m) :
    (parse_metrics input n).length ≤ n ∧
    parse_metrics input n = (parse_metrics input m).take n ∧
    (start_monitoring_from_fifo all_metrics .ok true true
        (("cpu,memory,cpu,memory,cpu,memory,cpu,memory,cpu,memory,cpu").toList)).2
      = FifoOutcome.loopForever [0, 1, 0, 1, 0, 1, 0, 1, 0, 1] ∧
    ((start_monitoring_from_fifo all_metrics .ok true true
        (("cpu,memory,cpu,memory,cpu,memory,cpu,memory,cpu,memory,cpu").toList)).1.countP
      (fun e => match e with | Event.stderrWrite _ => true | _ => false)) = 0 := by
  refine ⟨?_, ?_, by decide, by decide⟩
  · unfold parse_metrics
    rw [List.length_map]
    exact List.length_take_le _ _
  · unfold parse_metrics
    rw [List.map_take, List.map_take, List.take_take, Nat.min_eq_left h]

/-- C9 witness: a 3-token payload parsed with bound 2 keeps the first two
tokens. -/
theorem C9_witness :
    (parse_metrics (("a,b,c").toList) 2).length ≤ 2 ∧
    parse_metrics (("a,b,c").toList) 2 = (parse_metrics (("a,b,c").toList) 10).take 2 := by
  have h := C9_parse_bounded (("a,b,c").toList) 2 10 (by decide)
  exact ⟨h.1, h.2.1⟩

/-- C10: `strtok` produces no token for empty segments (so `,,cpu,` parses to
just `cpu`), but a whitespace-only segment does produce a token that trims to
the empty string (so `cpu, ,memory` parses to `[cpu, \x22\x22, memory]`),
and when no registry entry has an empty name such a selection makes dispatch
fail closed: no table, the loop never entered, no callback invoked. -/
theorem C10_empty_token_fails_dispatch (registry : List MetricInfo)
    (hne : ∀ info ∈ registry, info.name ≠ []) (threadOk : Bool)
    (names : List (List Char)) (hmem : [] ∈ names) :
    (start_metrics_monitoring registry threadOk names).2 = none ∧
    Event.enterLoop ∉ (start_metrics_monitoring registry threadOk names).1 ∧
    (∀ f, Event.callbackInvoked f ∉ (start_metrics_monitoring registry threadOk names).1) ∧
    parse_metrics ((",,cpu,").toList) 10 = [("cpu").toList] ∧
    parse_metrics (("cpu, ,memory").toList) 10
      = [("cpu").toList, [], ("memory").toList] := by
  obtain ⟨m, hm⟩ :=
    firstUnresolved_exists registry names [] hmem (find_empty_none registry hne)
  exact ⟨smm_snd_none registry threadOk names m hm,
    smm_fail_no_enterLoop registry threadOk names m hm,
    fun f => smm_no_callback registry threadOk names f,
    by decide, by decide⟩

/-- C10 witness: against the spec registry, the parsed payload `cpu, ,memory`
is rejected. -/
theorem C10_witness :
    (start_metrics_monitoring all_metrics true
        [("cpu").toList, [], ("memory").toList]).2 = none ∧
    Event.enterLoop ∉ (start_metrics_monitoring all_metrics true
        [("cpu").toList, [], ("memory").toList]).1 := by
  have h := C10_empty_token_fails_dispatch all_metrics (by decide) true
    [("cpu").toList, [], ("memory").toList] (by decide)
  exact ⟨h.1, h.2.1⟩
